import Mathlib

/-
Verification of FetchData.py (PortfolioAnalyzer.Core/Data/FetchData.py).

The script reads a ticker and a start date from sys.argv, downloads a daily
price history frame, resets the index so the date becomes a column, selects
the Date column and a price column (handling flat and two-level column
shapes), formats dates with strftime, and prints a JSON records array.

The embedding below models the pandas DataFrame returned by the provider as
a list of index dates, a column scheme (flat names or two-level pairs), and
a list of cell rows.  Each processing line of the script is one definition.
-/

/-- Calendar date given by year, month and day numbers. -/
structure Date where
  year : Nat
  month : Nat
  day : Nat
deriving DecidableEq, Repr

/-- Gregorian leap year test. -/
def isLeapYear (y : Nat) : Bool :=
  (y % 4 == 0 && y % 100 != 0) || (y % 400 == 0)

/-- Number of days of month m in year y. -/
def daysInMonth (y m : Nat) : Nat :=
  if m == 2 then (if isLeapYear y then 29 else 28)
  else if m == 4 || m == 6 || m == 9 || m == 11 then 30
  else 31

/-- Valid calendar date inside the representable range of the pandas
datetime64[ns] type (years 1677 to 2262), the element type of the
DatetimeIndex that the provider returns. -/
def Date.valid (d : Date) : Bool :=
  1677 ≤ d.year && d.year ≤ 2262 &&
  1 ≤ d.month && d.month ≤ 12 &&
  1 ≤ d.day && d.day ≤ daysInMonth d.year d.month

/-- Chronological order on dates, lexicographic on year, month, day. -/
def Date.leb (a b : Date) : Bool :=
  a.year < b.year ||
  (a.year == b.year && (a.month < b.month ||
    (a.month == b.month && a.day ≤ b.day)))

/-- One table cell: a date, a number, a string, or a missing value (NaN). -/
inductive Cell where
  | date : Date → Cell
  | num : Rat → Cell
  | str : String → Cell
  | null : Cell
deriving DecidableEq, Repr

/-- A price cell as the provider delivers it in a data row: a number or a
missing value. -/
def Cell.isPrice : Cell → Bool
  | .num _ => true
  | .null => true
  | _ => false

/-- All cells of all rows are price cells. -/
def priceRows (rows : List (List Cell)) : Bool :=
  rows.all (fun r => r.all Cell.isPrice)

/-- Column labels of the downloaded frame: either a flat list of field names
or a two-level list of (field, symbol) pairs, mirroring a pandas MultiIndex. -/
inductive Columns where
  | flat : List String → Columns
  | multi : List (String × String) → Columns
deriving DecidableEq, Repr

/-- The provider response, the result of yf.download: a table indexed by
dates, with price-field columns and one cell row per index entry.  pandas
guarantees one row per index entry and one cell per column. -/
structure RawFrame where
  index : List Date
  cols : Columns
  rows : List (List Cell)
deriving DecidableEq, Repr

/-- A frame with flat columns after the index reset. -/
structure FlatFrame where
  cols : List String
  rows : List (List Cell)
deriving DecidableEq, Repr

/-- A frame with two-level columns after the index reset. -/
structure MultiFrame where
  cols : List (String × String)
  rows : List (List Cell)
deriving DecidableEq, Repr

/-- The frame after the index reset, in one of the two column shapes the
script distinguishes with isinstance(data.columns, pd.MultiIndex). -/
inductive Frame where
  | flat : FlatFrame → Frame
  | multi : MultiFrame → Frame
deriving DecidableEq, Repr

/-- Rows after the index reset: each row gains its index date as the leading
cell. -/
def resetRows (index : List Date) (rows : List (List Cell)) : List (List Cell) :=
  List.zipWith (fun d r => Cell.date d :: r) index rows

/-- Mirror of data.reset_index(): the date index becomes a leading column
named Date; with MultiIndex columns pandas labels it with the pair
(Date, empty string). -/
def reset_index (raw : RawFrame) : Frame :=
  match raw.cols with
  | .flat names => .flat ⟨"Date" :: names, resetRows raw.index raw.rows⟩
  | .multi pairs => .multi ⟨("Date", "") :: pairs, resetRows raw.index raw.rows⟩

/-- Position of the first list element satisfying p. -/
def findIdx {α : Type} (p : α → Bool) : List α → Option Nat
  | [] => none
  | x :: xs => if p x then some 0 else (findIdx p xs).map (· + 1)

/-- Values of column i, one cell per row. -/
def colValues (rows : List (List Cell)) (i : Nat) : List Cell :=
  rows.map (fun r => r.getD i Cell.null)

/-- Label lookup data[name] on a flat frame: values of the first column with
that name. -/
def FlatFrame.col (f : FlatFrame) (name : String) : Option (List Cell) :=
  (findIdx (fun c => c == name) f.cols).map (colValues f.rows)

/-- Full-pair lookup data[(field, symbol)] on a two-level frame. -/
def MultiFrame.colPair (f : MultiFrame) (p : String × String) : Option (List Cell) :=
  (findIdx (fun c => c == p) f.cols).map (colValues f.rows)

/-- First-level lookup data[name] on a two-level frame; pandas drops the
remaining level, and with a lone empty-string sub-label the result is the
single sub-column as a Series. -/
def MultiFrame.colLevel0 (f : MultiFrame) (name : String) : Option (List Cell) :=
  (findIdx (fun c => c.fst == name) f.cols).map (colValues f.rows)

/-- Positional lookup data.iloc[:, -1], the last column; fails on a frame
with no columns. -/
def MultiFrame.lastCol (f : MultiFrame) : Option (List Cell) :=
  if f.cols.isEmpty then none else some (colValues f.rows (f.cols.length - 1))

/-- Mirror of the scan: for col in data.columns: if col[0] == "Close":
close_col = col; break. -/
def scanClose : List (String × String) → Option (String × String)
  | [] => none
  | c :: cs => if c.fst == "Close" then some c else scanClose cs

/-- The two-column frame the script names result_data: the Date column and a
price column, each with its output name. -/
structure ResultData where
  dateName : String
  dateCol : List Cell
  priceName : String
  priceCol : List Cell
deriving DecidableEq, Repr

/-- Mirror of the column-normalisation step of FetchData.py.  With MultiIndex
columns the script builds pd.DataFrame with keys Date and Close, taking the
Date column, and the scanned Close column or else the last column as a
fallback.  With flat columns it selects data[["Date", "Close"]]. -/
def result_data : Frame → Option ResultData
  | .multi f =>
      match f.colLevel0 "Date" with
      | none => none
      | some dcol =>
          match scanClose f.cols with
          | some cc =>
              match f.colPair cc with
              | none => none
              | some pcol => some ⟨"Date", dcol, "Close", pcol⟩
          | none =>
              match f.lastCol with
              | none => none
              | some pcol => some ⟨"Date", dcol, "Close", pcol⟩
  | .flat f =>
      match f.col "Date", f.col "Close" with
      | some dcol, some ccol => some ⟨"Date", dcol, "Close", ccol⟩
      | _, _ => none

/-- Decimal digit character for k between 0 and 9. -/
def digitChar (k : Nat) : Char := Char.ofNat (48 + k)

/-- Mirror of strftime("%Y-%m-%d") on one timestamp: zero-padded decimal
year, month and day.  On the datetime64[ns] range (years 1677 to 2262) the
year always prints as exactly four digits, which this digit-wise form
reproduces. -/
def strftimeYMD (d : Date) : String :=
  String.mk [digitChar (d.year / 1000 % 10), digitChar (d.year / 100 % 10),
    digitChar (d.year / 10 % 10), digitChar (d.year % 10), '-',
    digitChar (d.month / 10 % 10), digitChar (d.month % 10), '-',
    digitChar (d.day / 10 % 10), digitChar (d.day % 10)]

/-- Formatting of one cell of the Date column.  The .dt accessor requires a
datetime column, so a non-date cell is an uncaught failure. -/
def formatDateCell : Cell → Option Cell
  | .date d => some (.str (strftimeYMD d))
  | _ => none

/-- Formatting of a whole column, failing if any cell fails. -/
def formatColumn : List Cell → Option (List Cell)
  | [] => some []
  | c :: cs =>
      match formatDateCell c, formatColumn cs with
      | some c2, some cs2 => some (c2 :: cs2)
      | _, _ => none

/-- Mirror of: result_data["Date"] = result_data["Date"].dt.strftime(...). -/
def format_date_column (r : ResultData) : Option ResultData :=
  (formatColumn r.dateCol).map (fun dc => { r with dateCol := dc })

/-- JSON values. -/
inductive Json where
  | null : Json
  | str : String → Json
  | num : Rat → Json
  | arr : List Json → Json
  | obj : List (String × Json) → Json

/-- Serialisation of one cell by to_json: strings and numbers map to
themselves, a missing value maps to null.  A date cell never reaches this
point: the Date column is formatted to strings first and price cells are
numbers or missing. -/
def cellToJson : Cell → Json
  | .str s => .str s
  | .num q => .num q
  | .null => .null
  | .date _ => .null

/-- Mirror of result_data.to_json(orient="records"): one object per row, with
the two column names as keys in column order. -/
def to_json_records (r : ResultData) : Json :=
  .arr ((r.dateCol.zip r.priceCol).map (fun dp =>
    .obj [(r.dateName, cellToJson dp.fst), (r.priceName, cellToJson dp.snd)]))

/-- JSON string escaping for the two characters that need it here. -/
def escapeChar (c : Char) : String :=
  if c == '\x22' || c == '\\' then String.mk ['\\', c] else String.mk [c]

/-- Escape every character of a string. -/
def escapeString (s : String) : String :=
  String.join (s.toList.map escapeChar)

/-- Rendering of a JSON number.  No claim depends on numeric formatting; any
deterministic rendering serves. -/
def renderRat (q : Rat) : String :=
  if q.den == 1 then toString q.num else toString q.num ++ "/" ++ toString q.den

mutual

/-- Textual rendering of a JSON value. -/
def renderJson : Json → String
  | .null => "null"
  | .str s => "\x22" ++ escapeString s ++ "\x22"
  | .num q => renderRat q
  | .arr xs => "[" ++ renderItems xs ++ "]"
  | .obj kvs => "\x7b" ++ renderFields kvs ++ "\x7d"

/-- Comma-separated rendering of array items. -/
def renderItems : List Json → String
  | [] => ""
  | [x] => renderJson x
  | x :: y :: xs => renderJson x ++ "," ++ renderItems (y :: xs)

/-- Comma-separated rendering of object fields. -/
def renderFields : List (String × Json) → String
  | [] => ""
  | [kv] => "\x22" ++ escapeString kv.fst ++ "\x22:" ++ renderJson kv.snd
  | kv :: kv2 :: kvs =>
      "\x22" ++ escapeString kv.fst ++ "\x22:" ++ renderJson kv.snd ++ "," ++
        renderFields (kv2 :: kvs)

end

/-- Mirror of reading sys.argv[1] and sys.argv[2].  The argument list starts
with the program name, so the two positional arguments sit at positions one
and two; a missing one is an uncaught IndexError before any output. -/
def parseArgs (argv : List String) : Option (String × String) :=
  match argv[1]?, argv[2]? with
  | some t, some s => some (t, s)
  | _, _ => none

/-- The data pipeline of FetchData.py after the download: reset the index,
normalise the columns, format the dates, serialise to a records array.
A none is an uncaught exception. -/
def processResponse (raw : RawFrame) : Option Json :=
  match result_data (reset_index raw) with
  | none => none
  | some r =>
      match format_date_column r with
      | none => none
      | some r2 => some (to_json_records r2)

/-- Observable outcome of one process run: the exit status and what was
printed to standard output. -/
structure Outcome where
  exitCode : Nat
  stdout : Option String
deriving DecidableEq, Repr

/-- Whole-script model.  The arguments are read before anything is printed;
any uncaught exception ends the process with exit status 1 and no stdout;
on success the JSON text is printed and the process exits with 0. -/
def runScript (argv : List String) (resp : RawFrame) : Outcome :=
  match parseArgs argv with
  | none => ⟨1, none⟩
  | some _ =>
      match processResponse resp with
      | none => ⟨1, none⟩
      | some j => ⟨0, some (renderJson j)⟩

/-- Numeric value of a decimal digit character. -/
def charDigit (c : Char) : Option Nat :=
  if c.isDigit then some (c.toNat - 48) else none

/-- Decode a string of shape YYYY-MM-DD back into a date; any other shape
fails. -/
def parseYMD (s : String) : Option Date :=
  match s.toList with
  | [y1, y2, y3, y4, s1, m1, m2, s2, d1, d2] =>
      if s1 == '-' && s2 == '-' then
        match charDigit y1, charDigit y2, charDigit y3, charDigit y4,
            charDigit m1, charDigit m2, charDigit d1, charDigit d2 with
        | some a, some b, some c, some e, some f, some g, some h, some i =>
            some ⟨1000 * a + 100 * b + 10 * c + e, 10 * f + g, 10 * h + i⟩
        | _, _, _, _, _, _, _, _ => none
      else none
  | _ => none

/-- The date string of one emitted record: the value of its leading field,
when that value is a string. -/
def recordDateStr : Json → Option String
  | .obj ((_, .str s) :: _) => some s
  | _ => none

/-- The date of one emitted record, decoded from its date string. -/
def recordDateParsed (j : Json) : Option Date :=
  (recordDateStr j).bind parseYMD

/-- Decode the dates of a list of records; fails if any record fails. -/
def decodeDates : List Json → Option (List Date)
  | [] => some []
  | r :: rs =>
      match recordDateParsed r, decodeDates rs with
      | some d, some ds => some (d :: ds)
      | _, _ => none

/-- The price value of each record of a list: the value of the second of its
exactly two fields. -/
def priceValuesList : List Json → Option (List Json)
  | [] => some []
  | r :: rs =>
      match r, priceValuesList rs with
      | .obj [_, kv], some vs => some (kv.snd :: vs)
      | _, _ => none

/-- The price values of an emitted records array. -/
def priceValues : Json → Option (List Json)
  | .arr recs => priceValuesList recs
  | _ => none

/-- The field names of one record object. -/
def recordKeys : Json → List String
  | .obj kvs => kvs.map Prod.fst
  | _ => []

/-- The record object built from a formatted date cell and a price cell. -/
def priceRecord (p : Cell × Cell) : Json :=
  .obj [("Date", cellToJson p.fst), ("Close", cellToJson p.snd)]

/-
Helper lemmas about the embedded operations.
-/

/-- Reading back a decimal digit character gives the digit. -/
theorem charDigit_digitChar (k : Nat) (hk : k < 10) : charDigit (digitChar k) = some k := by
  interval_cases k <;> decide

/-- Every month length is at most 31. -/
theorem daysInMonth_le (y m : Nat) : daysInMonth y m ≤ 31 := by
  unfold daysInMonth
  split
  · split <;> omega
  · split <;> omega

/-- Decoding inverts the strftime formatting on every valid date. -/
theorem parseYMD_strftimeYMD (d : Date) (hd : d.valid = true) :
    parseYMD (strftimeYMD d) = some d := by
  obtain ⟨y, m, dd⟩ := d
  have h31 := daysInMonth_le y m
  simp only [Date.valid, Bool.and_eq_true, decide_eq_true_eq] at hd
  unfold strftimeYMD parseYMD
  simp only [String.toList]
  simp only [charDigit_digitChar _ (Nat.mod_lt _ (by omega))]
  norm_num
  constructor
  · omega
  constructor
  · omega
  · omega

/-- Column zero of the reset rows is the list of index dates. -/
theorem colValues_resetRows_zero (index : List Date) (rows : List (List Cell))
    (h : rows.length = index.length) :
    colValues (resetRows index rows) 0 = index.map Cell.date := by
  induction index generalizing rows with
  | nil =>
      cases rows with
      | nil => rfl
      | cons r rs => simp at h
  | cons d ds ih =>
      cases rows with
      | nil => simp at h
      | cons r rs =>
          simp only [resetRows, List.zipWith_cons_cons, colValues, List.map_cons,
            List.getD_cons_zero]
          simp only [List.length_cons] at h
          have := ih rs (by omega)
          simp only [resetRows, colValues] at this
          rw [this]

/-- Later columns of the reset rows are the original columns, shifted by one. -/
theorem colValues_resetRows_succ (index : List Date) (rows : List (List Cell))
    (h : rows.length = index.length) (i : Nat) :
    colValues (resetRows index rows) (i + 1) = colValues rows i := by
  induction index generalizing rows with
  | nil =>
      cases rows with
      | nil => rfl
      | cons r rs => simp at h
  | cons d ds ih =>
      cases rows with
      | nil => simp at h
      | cons r rs =>
          simp only [resetRows, List.zipWith_cons_cons, colValues, List.map_cons,
            List.getD_cons_succ]
          simp only [List.length_cons] at h
          have := ih rs (by omega)
          simp only [resetRows, colValues] at this
          rw [this]

/-- Formatting a column of date cells succeeds and yields the formatted strings. -/
theorem formatColumn_dates (index : List Date) :
    formatColumn (index.map Cell.date) =
      some (index.map fun d => Cell.str (strftimeYMD d)) := by
  induction index with
  | nil => rfl
  | cons d ds ih => simp [formatColumn, formatDateCell, ih]

/-- The finder returns the position of the first match. -/
theorem findIdx_append_first {α : Type} (p : α → Bool) (pre : List α) (x : α)
    (post : List α) (hpre : ∀ c ∈ pre, p c = false) (hx : p x = true) :
    findIdx p (pre ++ x :: post) = some pre.length := by
  induction pre with
  | nil => simp [findIdx, hx]
  | cons a l ih =>
      have ha := hpre a (by simp)
      simp only [List.cons_append, findIdx, ha, Bool.false_eq_true, if_false,
        List.append_eq]
      rw [ih (fun c hc => hpre c (by simp [hc]))]
      rfl

/-- The finder succeeds on a member of the list. -/
theorem findIdx_mem {α : Type} [BEq α] [LawfulBEq α] (l : List α) (x : α) (h : x ∈ l) :
    ∃ k, findIdx (fun c => c == x) l = some k := by
  induction l with
  | nil => cases h
  | cons a t ih =>
      by_cases ha : (a == x) = true
      · exact ⟨0, by simp [findIdx, ha]⟩
      · rcases List.mem_cons.mp h with h1 | h1
        · exact absurd (by simp [h1]) ha
        · obtain ⟨k, hk⟩ := ih h1
          refine ⟨k + 1, ?_⟩
          simp [findIdx, ha, hk]

/-- The Close scan finds nothing when no first level equals Close. -/
theorem scanClose_none (l : List (String × String))
    (h : ∀ c ∈ l, c.fst ≠ "Close") : scanClose l = none := by
  induction l with
  | nil => rfl
  | cons a t ih =>
      have ha : (a.fst == "Close") = false := by
        rw [beq_eq_false_iff_ne]
        exact h a (by simp)
      simp [scanClose, ha, ih (fun c hc => h c (by simp [hc]))]

/-- The Close scan returns the first column whose first level is Close. -/
theorem scanClose_append (pre : List (String × String)) (x : String × String)
    (post : List (String × String)) (hpre : ∀ c ∈ pre, c.fst ≠ "Close")
    (hx : (x.fst == "Close") = true) : scanClose (pre ++ x :: post) = some x := by
  induction pre with
  | nil => simp [scanClose, hx]
  | cons a l ih =>
      have ha : (a.fst == "Close") = false := by
        rw [beq_eq_false_iff_ne]
        exact hpre a (by simp)
      simp [scanClose, ha, ih (fun c hc => hpre c (by simp [hc]))]

/-- Record construction commutes with pre-formatting the date cells. -/
theorem zip_map_records (index : List Date) (b : List Cell) :
    (((index.map fun d => Cell.str (strftimeYMD d)).zip b).map
      (fun dp => Json.obj [("Date", cellToJson dp.fst), ("Close", cellToJson dp.snd)])) =
    ((index.zip b).map (fun p =>
      Json.obj [("Date", Json.str (strftimeYMD p.fst)), ("Close", cellToJson p.snd)])) := by
  induction index generalizing b with
  | nil => simp
  | cons d ds ih =>
      cases b with
      | nil => simp
      | cons c cs =>
          simp only [List.map_cons, List.zip_cons_cons, ih]
          rfl

/-- Column values always have one entry per row. -/
theorem length_colValues (rows : List (List Cell)) (i : Nat) :
    (colValues rows i).length = rows.length := by
  simp [colValues]

/-- Whenever the normalisation step succeeds on a reset frame, the result has
the fixed names Date and Close, its date column is column zero of the reset
rows, and its price column is some column of the reset rows. -/
theorem result_data_reset_shape (raw : RawFrame) (r : ResultData)
    (h : result_data (reset_index raw) = some r) :
    ∃ i, r = ⟨"Date", colValues (resetRows raw.index raw.rows) 0, "Close",
      colValues (resetRows raw.index raw.rows) i⟩ := by
  obtain ⟨index, cols, rows⟩ := raw
  cases cols with
  | flat names =>
      show ∃ i, r = ⟨"Date", colValues (resetRows index rows) 0, "Close",
        colValues (resetRows index rows) i⟩
      have h2 : result_data (Frame.flat ⟨"Date" :: names, resetRows index rows⟩) = some r := h
      have hd : FlatFrame.col ⟨"Date" :: names, resetRows index rows⟩ "Date" =
          some (colValues (resetRows index rows) 0) := by
        simp [FlatFrame.col, findIdx]
      rcases hf : findIdx (fun c => c == "Close") ("Date" :: names) with _ | k
      · have hc : FlatFrame.col ⟨"Date" :: names, resetRows index rows⟩ "Close" = none := by
          simp [FlatFrame.col, hf]
        simp only [result_data, hd, hc] at h2
        simp at h2
      · have hc : FlatFrame.col ⟨"Date" :: names, resetRows index rows⟩ "Close" =
            some (colValues (resetRows index rows) k) := by
          simp [FlatFrame.col, hf]
        simp only [result_data, hd, hc, Option.some.injEq] at h2
        exact ⟨k, h2.symm⟩
  | multi pairs =>
      show ∃ i, r = ⟨"Date", colValues (resetRows index rows) 0, "Close",
        colValues (resetRows index rows) i⟩
      have h2 : result_data (Frame.multi ⟨("Date", "") :: pairs, resetRows index rows⟩) =
          some r := h
      have hd : MultiFrame.colLevel0 ⟨("Date", "") :: pairs, resetRows index rows⟩ "Date" =
          some (colValues (resetRows index rows) 0) := by
        simp [MultiFrame.colLevel0, findIdx]
      rcases hs : scanClose (("Date", "") :: pairs) with _ | cc
      · have hl : MultiFrame.lastCol ⟨("Date", "") :: pairs, resetRows index rows⟩ =
            some (colValues (resetRows index rows) ((("Date", "") :: pairs).length - 1)) := by
          simp [MultiFrame.lastCol]
        simp only [result_data, hd, hs, hl, Option.some.injEq] at h2
        exact ⟨(("Date", "") :: pairs).length - 1, h2.symm⟩
      · rcases hf : findIdx (fun c => c == cc) (("Date", "") :: pairs) with _ | k
        · have hp : MultiFrame.colPair ⟨("Date", "") :: pairs, resetRows index rows⟩ cc =
              none := by
            simp [MultiFrame.colPair, hf]
          simp only [result_data, hd, hs, hp] at h2
          simp at h2
        · have hp : MultiFrame.colPair ⟨("Date", "") :: pairs, resetRows index rows⟩ cc =
              some (colValues (resetRows index rows) k) := by
            simp [MultiFrame.colPair, hf]
          simp only [result_data, hd, hs, hp, Option.some.injEq] at h2
          exact ⟨k, h2.symm⟩

/-- Whenever the pipeline succeeds on a wellformed response, the output is the
records array built from the formatted index dates zipped with some cell
column, with the fixed keys Date and Close. -/
theorem processResponse_shape (raw : RawFrame) (j : Json)
    (hrows : raw.rows.length = raw.index.length)
    (h : processResponse raw = some j) :
    ∃ pcol : List Cell, pcol.length = raw.index.length ∧
      j = Json.arr (((raw.index.map fun d => Cell.str (strftimeYMD d)).zip pcol).map
        priceRecord) := by
  rcases hr : result_data (reset_index raw) with _ | r
  · simp only [processResponse, hr] at h
    simp at h
  · obtain ⟨i, hi⟩ := result_data_reset_shape raw r hr
    subst hi
    simp only [processResponse, hr, format_date_column,
      colValues_resetRows_zero _ _ hrows, formatColumn_dates, Option.map_some',
      to_json_records, Option.some.injEq] at h
    refine ⟨colValues (resetRows raw.index raw.rows) i, ?_, ?_⟩
    · simp [length_colValues, resetRows, hrows]
    · rw [← h]
      rfl

/-- Decoding the dates of the records array recovers the index dates. -/
theorem decodeDates_records (index : List Date) (pcol : List Cell)
    (hlen : pcol.length = index.length)
    (hvalid : ∀ d ∈ index, d.valid = true) :
    decodeDates (((index.map fun d => Cell.str (strftimeYMD d)).zip pcol).map priceRecord) =
      some index := by
  induction index generalizing pcol with
  | nil => simp [decodeDates]
  | cons d ds ih =>
      cases pcol with
      | nil => simp at hlen
      | cons c cs =>
          simp only [List.map_cons, List.zip_cons_cons, decodeDates]
          have h1 : recordDateParsed (priceRecord (Cell.str (strftimeYMD d), c)) = some d := by
            simp [recordDateParsed, priceRecord, recordDateStr, cellToJson,
              parseYMD_strftimeYMD d (hvalid d (by simp))]
          rw [h1]
          have h2 := ih cs (by simpa using hlen) (fun x hx => hvalid x (by simp [hx]))
          simp only [List.zip] at h2
          rw [h2]

/-- Reading fewer than two positional arguments raises before any output. -/
theorem parseArgs_short (argv : List String) (h : argv.length < 3) :
    parseArgs argv = none := by
  cases argv with
  | nil => rfl
  | cons a t =>
      cases t with
      | nil => rfl
      | cons b t2 =>
          cases t2 with
          | nil => rfl
          | cons c t3 =>
              simp [List.length_cons] at h
              omega

/-- With at least two positional arguments the argument read succeeds. -/
theorem parseArgs_long (argv : List String) (h : 3 ≤ argv.length) :
    ∃ p, parseArgs argv = some p := by
  cases argv with
  | nil => simp at h
  | cons a t =>
      cases t with
      | nil => simp at h
      | cons b t2 =>
          cases t2 with
          | nil => simp at h
          | cons c t3 => exact ⟨(b, c), by simp [parseArgs]⟩

/-- Every run either fails with status 1 and no output, or succeeds with
status 0 and some printed text. -/
theorem runScript_outcomes (argv : List String) (resp : RawFrame) :
    runScript argv resp = ⟨1, none⟩ ∨ ∃ s, runScript argv resp = ⟨0, some s⟩ := by
  unfold runScript
  cases hpa : parseArgs argv with
  | none => exact Or.inl rfl
  | some p =>
      cases hpr : processResponse resp with
      | none => exact Or.inl rfl
      | some j => exact Or.inr ⟨renderJson j, rfl⟩

/-
Claim theorems.
-/

/-- Claim C1: for every provider response with two-level columns that contain
at least one column whose first level equals Close, the output price values
are those of that Close sub-column, whatever the symbol in the second level.
The first such column sits after pre, and the hypotheses keep the response
inside the shapes pandas itself accepts: no duplicate of the selected pair,
no pre-existing Date column, one row per index entry, price cells in rows. -/
theorem c1_multi_close_column (index : List Date) (pre post : List (String × String))
    (sym : String) (rows : List (List Cell))
    (hpre : ∀ c ∈ pre, c.fst ≠ "Close")
    (hpost : ("Close", sym) ∉ post)
    (hnodate : ("Date", "") ∉ pre ++ ("Close", sym) :: post)
    (hrows : rows.length = index.length)
    (hcells : priceRows rows = true) :
    processResponse ⟨index, Columns.multi (pre ++ ("Close", sym) :: post), rows⟩ =
      some (Json.arr ((index.zip (colValues rows pre.length)).map (fun p =>
        Json.obj [("Date", Json.str (strftimeYMD p.fst)), ("Close", cellToJson p.snd)]))) := by
  have heq : (("Date", "") :: (pre ++ ("Close", sym) :: post)) =
      ((("Date", "") :: pre) ++ ("Close", sym) :: post) := by simp
  have hdate : MultiFrame.colLevel0
      ⟨("Date", "") :: (pre ++ ("Close", sym) :: post), resetRows index rows⟩ "Date" =
      some (colValues (resetRows index rows) 0) := by
    simp [MultiFrame.colLevel0, findIdx]
  have hscan : scanClose (("Date", "") :: (pre ++ ("Close", sym) :: post)) =
      some ("Close", sym) := by
    rw [heq]
    refine scanClose_append _ _ _ ?_ (by simp)
    intro c hc
    rcases List.mem_cons.mp hc with h | h
    · subst h; decide
    · exact hpre c h
  have hpairfind : findIdx (fun c => c == ("Close", sym))
      (("Date", "") :: (pre ++ ("Close", sym) :: post)) = some (pre.length + 1) := by
    rw [heq, findIdx_append_first]
    · simp
    · intro c hc
      rw [beq_eq_false_iff_ne]
      rcases List.mem_cons.mp hc with h | h
      · subst h
        intro he
        have hfst : ("Date" : String) = "Close" := congrArg Prod.fst he
        exact absurd hfst (by decide)
      · intro he
        exact hpre c h (by rw [he])
    · simp
  have hpair : MultiFrame.colPair
      ⟨("Date", "") :: (pre ++ ("Close", sym) :: post), resetRows index rows⟩ ("Close", sym) =
      some (colValues (resetRows index rows) (pre.length + 1)) := by
    simp [MultiFrame.colPair, hpairfind]
  have hresult : result_data
      (reset_index ⟨index, Columns.multi (pre ++ ("Close", sym) :: post), rows⟩) =
      some ⟨"Date", colValues (resetRows index rows) 0, "Close",
        colValues (resetRows index rows) (pre.length + 1)⟩ := by
    show result_data (Frame.multi ⟨("Date", "") :: (pre ++ ("Close", sym) :: post),
      resetRows index rows⟩) = _
    simp [result_data, hdate, hscan, hpair]
  simp only [processResponse, hresult, format_date_column,
    colValues_resetRows_zero _ _ hrows, formatColumn_dates, Option.map_some',
    to_json_records, colValues_resetRows_succ _ _ hrows, zip_map_records]

/-- Witness for claim C1 at a concrete three-column response with the Close
column in the middle. -/
theorem c1_multi_close_column_witness :
    processResponse ⟨[⟨2020, 1, 2⟩],
      Columns.multi [("Open", "AAPL"), ("Close", "AAPL"), ("Volume", "AAPL")],
      [[Cell.num 10, Cell.num 7, Cell.num 100]]⟩ =
    some (Json.arr (([(⟨2020, 1, 2⟩ : Date)].zip
      (colValues [[Cell.num 10, Cell.num 7, Cell.num 100]] 1)).map (fun p =>
      Json.obj [("Date", Json.str (strftimeYMD p.fst)), ("Close", cellToJson p.snd)]))) :=
  c1_multi_close_column [⟨2020, 1, 2⟩] [("Open", "AAPL")] [("Volume", "AAPL")] "AAPL"
    [[Cell.num 10, Cell.num 7, Cell.num 100]] (by decide) (by decide) (by decide)
    (by decide) (by decide)

/-- Claim C2: for every provider response with flat columns containing Date
and Close, the output is exactly the Date and Close columns, in that order,
with row order and cell values preserved.  In the download result the dates
form the index, which the reset materialises as the Date column; Close sits
after pre among the field columns. -/
theorem c2_flat_date_close (index : List Date) (pre post : List String)
    (rows : List (List Cell))
    (hpre : "Close" ∉ pre) (hpost : "Close" ∉ post)
    (hnodate : "Date" ∉ pre ++ "Close" :: post)
    (hrows : rows.length = index.length)
    (hcells : priceRows rows = true) :
    processResponse ⟨index, Columns.flat (pre ++ "Close" :: post), rows⟩ =
      some (Json.arr ((index.zip (colValues rows pre.length)).map (fun p =>
        Json.obj [("Date", Json.str (strftimeYMD p.fst)), ("Close", cellToJson p.snd)]))) := by
  have hdate : FlatFrame.col ⟨"Date" :: (pre ++ "Close" :: post), resetRows index rows⟩ "Date" =
      some (colValues (resetRows index rows) 0) := by
    simp [FlatFrame.col, findIdx]
  have hclosefind : findIdx (fun c => c == "Close") ("Date" :: (pre ++ "Close" :: post)) =
      some (pre.length + 1) := by
    have heq : ("Date" :: (pre ++ "Close" :: post)) = ("Date" :: pre) ++ "Close" :: post := by
      simp
    rw [heq, findIdx_append_first]
    · simp
    · intro c hc
      rw [beq_eq_false_iff_ne]
      rcases List.mem_cons.mp hc with h | h
      · subst h; decide
      · intro he; exact hpre (he ▸ h)
    · simp
  have hclose : FlatFrame.col ⟨"Date" :: (pre ++ "Close" :: post), resetRows index rows⟩ "Close" =
      some (colValues (resetRows index rows) (pre.length + 1)) := by
    simp [FlatFrame.col, hclosefind]
  have hresult : result_data (reset_index ⟨index, Columns.flat (pre ++ "Close" :: post), rows⟩) =
      some ⟨"Date", colValues (resetRows index rows) 0, "Close",
        colValues (resetRows index rows) (pre.length + 1)⟩ := by
    show result_data (Frame.flat ⟨"Date" :: (pre ++ "Close" :: post), resetRows index rows⟩) = _
    simp [result_data, hdate, hclose]
  simp only [processResponse, hresult, format_date_column,
    colValues_resetRows_zero _ _ hrows, formatColumn_dates, Option.map_some',
    to_json_records, colValues_resetRows_succ _ _ hrows, zip_map_records]

/-- Witness for claim C2 at a concrete flat response with columns Open,
Close, Volume and one row. -/
theorem c2_flat_date_close_witness :
    processResponse ⟨[⟨2021, 5, 3⟩], Columns.flat ["Open", "Close", "Volume"],
      [[Cell.num 10, Cell.num 132, Cell.num 9]]⟩ =
    some (Json.arr (([(⟨2021, 5, 3⟩ : Date)].zip
      (colValues [[Cell.num 10, Cell.num 132, Cell.num 9]] 1)).map (fun p =>
      Json.obj [("Date", Json.str (strftimeYMD p.fst)), ("Close", cellToJson p.snd)]))) :=
  c2_flat_date_close [⟨2021, 5, 3⟩] ["Open"] ["Volume"]
    [[Cell.num 10, Cell.num 132, Cell.num 9]]
    (by decide) (by decide) (by decide) (by decide) (by decide)

/-- Claim C3: for every provider response with two-level columns none of
whose first levels equals Close, the pipeline does not fail: it takes the
values of the last column in column order as the price column and still
produces output.  The response must have at least one column, as every real
two-level response does. -/
theorem c3_fallback_last_column (index : List Date) (pairs : List (String × String))
    (rows : List (List Cell))
    (hnone : ∀ c ∈ pairs, c.fst ≠ "Close")
    (hne : pairs ≠ [])
    (hnodate : ("Date", "") ∉ pairs)
    (hrows : rows.length = index.length)
    (hcells : priceRows rows = true) :
    processResponse ⟨index, Columns.multi pairs, rows⟩ =
      some (Json.arr ((index.zip (colValues rows (pairs.length - 1))).map (fun p =>
        Json.obj [("Date", Json.str (strftimeYMD p.fst)), ("Close", cellToJson p.snd)]))) := by
  have hlen : pairs.length - 1 + 1 = pairs.length := by
    have : pairs.length ≠ 0 := by
      intro h
      exact hne (List.length_eq_zero.mp h)
    omega
  have hdate : MultiFrame.colLevel0 ⟨("Date", "") :: pairs, resetRows index rows⟩ "Date" =
      some (colValues (resetRows index rows) 0) := by
    simp [MultiFrame.colLevel0, findIdx]
  have hscan : scanClose (("Date", "") :: pairs) = none := by
    refine scanClose_none _ ?_
    intro c hc
    rcases List.mem_cons.mp hc with h | h
    · subst h; decide
    · exact hnone c h
  have hlast : MultiFrame.lastCol ⟨("Date", "") :: pairs, resetRows index rows⟩ =
      some (colValues (resetRows index rows) (pairs.length - 1 + 1)) := by
    simp [MultiFrame.lastCol, hlen]
  have hresult : result_data (reset_index ⟨index, Columns.multi pairs, rows⟩) =
      some ⟨"Date", colValues (resetRows index rows) 0, "Close",
        colValues (resetRows index rows) (pairs.length - 1 + 1)⟩ := by
    show result_data (Frame.multi ⟨("Date", "") :: pairs, resetRows index rows⟩) = _
    simp [result_data, hdate, hscan, hlast]
  simp only [processResponse, hresult, format_date_column,
    colValues_resetRows_zero _ _ hrows, formatColumn_dates, Option.map_some',
    to_json_records, colValues_resetRows_succ _ _ hrows, zip_map_records]

/-- Witness for claim C3 at a concrete two-level response with no Close
column: the Volume column, last in order, supplies the price values. -/
theorem c3_fallback_last_column_witness :
    processResponse ⟨[⟨2020, 1, 2⟩], Columns.multi [("Open", "X"), ("Volume", "X")],
      [[Cell.num 1, Cell.num 2]]⟩ =
    some (Json.arr (([(⟨2020, 1, 2⟩ : Date)].zip
      (colValues [[Cell.num 1, Cell.num 2]] 1)).map (fun p =>
      Json.obj [("Date", Json.str (strftimeYMD p.fst)), ("Close", cellToJson p.snd)]))) :=
  c3_fallback_last_column [⟨2020, 1, 2⟩] [("Open", "X"), ("Volume", "X")]
    [[Cell.num 1, Cell.num 2]]
    (by decide) (by decide) (by decide) (by decide) (by decide)

/-- Counterexample for claim C4 as stated: in the two-level fallback case the
emitted price key is not the last column name.  On a two-level response whose
only column is (Open, AAPL), the fallback selects that last column, yet the
emitted key is the fixed name Close, not Open: the constructed frame renames
the selected column. -/
theorem c4_fallback_key_counterexample :
    processResponse ⟨[⟨2020, 1, 2⟩], Columns.multi [("Open", "AAPL")], [[Cell.num 3]]⟩ =
      some (Json.arr [Json.obj [("Date", Json.str "2020-01-02"), ("Close", Json.num 3)]]) ∧
    ("Close" : String) ≠ "Open" := ⟨rfl, by decide⟩

/-- Claim C4 as amended: for every successful run on a wellformed response,
every emitted record carries exactly the keys Date and Close, in that order;
in the two-level branch, fallback included, the selected column is renamed
to Close when the result frame is constructed. -/
theorem c4_price_key_is_close (raw : RawFrame) (recs : List Json)
    (hrows : raw.rows.length = raw.index.length)
    (h : processResponse raw = some (Json.arr recs)) :
    ∀ r ∈ recs, recordKeys r = ["Date", "Close"] := by
  obtain ⟨pcol, hlen, hj⟩ := processResponse_shape raw _ hrows h
  injection hj with hj2
  subst hj2
  intro r hr
  obtain ⟨p, hp, hpr⟩ := List.mem_map.mp hr
  rw [← hpr]
  rfl

/-- Witness for the amended claim C4 at the concrete fallback run. -/
theorem c4_price_key_is_close_witness :
    recordKeys (Json.obj [("Date", Json.str "2020-01-02"), ("Close", Json.num 3)]) =
      ["Date", "Close"] :=
  c4_price_key_is_close ⟨[⟨2020, 1, 2⟩], Columns.multi [("Open", "AAPL")], [[Cell.num 3]]⟩
    [Json.obj [("Date", Json.str "2020-01-02"), ("Close", Json.num 3)]]
    (by decide) rfl
    (Json.obj [("Date", Json.str "2020-01-02"), ("Close", Json.num 3)])
    (List.mem_singleton.mpr rfl)

/-- Claim C5: on every successful run over a wellformed response whose index
dates are real datetime64 dates, every emitted record carries a date string
that decodes to a valid calendar date in the YYYY-MM-DD shape, with no
time-of-day part. -/
theorem c5_dates_wellformed (raw : RawFrame) (recs : List Json)
    (hrows : raw.rows.length = raw.index.length)
    (hvalid : ∀ d ∈ raw.index, d.valid = true)
    (h : processResponse raw = some (Json.arr recs)) :
    ∀ r ∈ recs, ∃ s d, recordDateStr r = some s ∧ parseYMD s = some d ∧
      d.valid = true := by
  obtain ⟨pcol, hlen, hj⟩ := processResponse_shape raw _ hrows h
  injection hj with hj2
  subst hj2
  intro r hr
  obtain ⟨p, hp, hpr⟩ := List.mem_map.mp hr
  obtain ⟨hp1, hp2⟩ := List.of_mem_zip hp
  obtain ⟨d, hd, he⟩ := List.mem_map.mp hp1
  refine ⟨strftimeYMD d, d, ?_, parseYMD_strftimeYMD d (hvalid d hd), hvalid d hd⟩
  rw [← hpr]
  simp [priceRecord, ← he, cellToJson, recordDateStr]

/-- Witness for claim C5 at a concrete one-row run. -/
theorem c5_dates_wellformed_witness :
    ∃ s d, recordDateStr (Json.obj [("Date", Json.str "2021-05-03"), ("Close", Json.num 132)]) =
      some s ∧ parseYMD s = some d ∧ d.valid = true :=
  c5_dates_wellformed ⟨[⟨2021, 5, 3⟩], Columns.flat ["Close"], [[Cell.num 132]]⟩
    [Json.obj [("Date", Json.str "2021-05-03"), ("Close", Json.num 132)]]
    (by decide) (by decide) rfl
    (Json.obj [("Date", Json.str "2021-05-03"), ("Close", Json.num 132)])
    (List.mem_singleton.mpr rfl)

/-- Claim C6: on every successful run over a wellformed response with real
dates, the number of emitted records equals the number of rows of the
response, no record has a null date, the record dates decode to exactly the
provider index dates in provider order, and therefore ascending provider
dates give output that is non-decreasing by date. -/
theorem c6_count_nonnull_order (raw : RawFrame) (recs : List Json)
    (hrows : raw.rows.length = raw.index.length)
    (hvalid : ∀ d ∈ raw.index, d.valid = true)
    (h : processResponse raw = some (Json.arr recs)) :
    recs.length = raw.rows.length ∧
    (∀ r ∈ recs, ∃ s, recordDateStr r = some s) ∧
    decodeDates recs = some raw.index ∧
    (List.Chain' (fun a b => Date.leb a b = true) raw.index →
      ∃ ds, decodeDates recs = some ds ∧
        List.Chain' (fun a b => Date.leb a b = true) ds) := by
  obtain ⟨pcol, hlen, hj⟩ := processResponse_shape raw _ hrows h
  injection hj with hj2
  subst hj2
  have hdec := decodeDates_records raw.index pcol hlen hvalid
  refine ⟨?_, ?_, hdec, fun hc => ⟨raw.index, hdec, hc⟩⟩
  · simp [List.length_zip, hlen, hrows]
  · intro r hr
    obtain ⟨p, hp, hpr⟩ := List.mem_map.mp hr
    obtain ⟨hp1, hp2⟩ := List.of_mem_zip hp
    obtain ⟨d, hd, he⟩ := List.mem_map.mp hp1
    exact ⟨strftimeYMD d, by
      rw [← hpr]
      simp [priceRecord, ← he, cellToJson, recordDateStr]⟩

/-- Witness for claim C6 at a concrete one-row run. -/
theorem c6_count_nonnull_order_witness :
    ([Json.obj [("Date", Json.str "2020-01-02"), ("Close", Json.num 5)]] : List Json).length =
      ([[Cell.num 5]] : List (List Cell)).length ∧
    (∀ r ∈ ([Json.obj [("Date", Json.str "2020-01-02"), ("Close", Json.num 5)]] : List Json),
      ∃ s, recordDateStr r = some s) ∧
    decodeDates [Json.obj [("Date", Json.str "2020-01-02"), ("Close", Json.num 5)]] =
      some [⟨2020, 1, 2⟩] ∧
    (List.Chain' (fun a b => Date.leb a b = true) [(⟨2020, 1, 2⟩ : Date)] →
      ∃ ds, decodeDates [Json.obj [("Date", Json.str "2020-01-02"), ("Close", Json.num 5)]] =
        some ds ∧ List.Chain' (fun a b => Date.leb a b = true) ds) :=
  c6_count_nonnull_order ⟨[⟨2020, 1, 2⟩], Columns.flat ["Close"], [[Cell.num 5]]⟩
    [Json.obj [("Date", Json.str "2020-01-02"), ("Close", Json.num 5)]]
    (by decide) (by decide) rfl

/-- Claim C7: invoking the script with fewer than two positional arguments,
that is with an argument vector shorter than three entries including the
program name, ends the process with exit status 1 and writes nothing to
standard output, whatever the provider would have answered. -/
theorem c7_too_few_args (argv : List String) (resp : RawFrame)
    (h : argv.length < 3) :
    runScript argv resp = ⟨1, none⟩ := by
  simp [runScript, parseArgs_short argv h]

/-- Witness for claim C7 at a one-argument invocation. -/
theorem c7_too_few_args_witness :
    runScript ["FetchData.py", "AAPL"] ⟨[], Columns.flat [], []⟩ = ⟨1, none⟩ :=
  c7_too_few_args ["FetchData.py", "AAPL"] ⟨[], Columns.flat [], []⟩ (by decide)

/-- Counterexample for claim C8 as stated: an invocation whose positional
argument count is three, not two, still exits with status 0 when the
download succeeds, because the script never checks the argument count and
ignores every argument after the second. -/
theorem c8_extra_args_counterexample :
    (["FetchData.py", "AAPL", "2020-01-01", "extra"] : List String).length = 4 ∧
    (runScript ["FetchData.py", "AAPL", "2020-01-01", "extra"]
      ⟨[⟨2020, 1, 2⟩], Columns.flat ["Close"], [[Cell.num 1]]⟩).exitCode = 0 :=
  ⟨rfl, rfl⟩

/-- Claim C8 as amended: the process exits with status 0 exactly when it
prints JSON to standard output, and an invocation with fewer than two
positional arguments always exits with a non-zero status; arguments beyond
the second are ignored rather than rejected. -/
theorem c8_exit_code_success (argv : List String) (resp : RawFrame) :
    ((runScript argv resp).exitCode = 0 ↔ (runScript argv resp).stdout.isSome = true) ∧
    (argv.length < 3 → (runScript argv resp).exitCode ≠ 0) := by
  constructor
  · rcases runScript_outcomes argv resp with h | ⟨s, h⟩ <;> rw [h] <;> simp
  · intro hlen
    simp [runScript, parseArgs_short argv hlen]

/-- Witness for the amended claim C8 at a one-argument invocation. -/
theorem c8_exit_code_success_witness :
    ((runScript ["FetchData.py"]
        ⟨[⟨2020, 1, 2⟩], Columns.flat ["Close"], [[Cell.num 1]]⟩).exitCode = 0 ↔
      (runScript ["FetchData.py"]
        ⟨[⟨2020, 1, 2⟩], Columns.flat ["Close"], [[Cell.num 1]]⟩).stdout.isSome = true) ∧
    ((["FetchData.py"] : List String).length < 3 →
      (runScript ["FetchData.py"]
        ⟨[⟨2020, 1, 2⟩], Columns.flat ["Close"], [[Cell.num 1]]⟩).exitCode ≠ 0) :=
  c8_exit_code_success ["FetchData.py"] ⟨[⟨2020, 1, 2⟩], Columns.flat ["Close"], [[Cell.num 1]]⟩

/-- Claim C9: on every successful run over a wellformed response with real
dates, the emitted array consists of objects with exactly two keys, and the
date value of every record decodes as a calendar date. -/
theorem c9_records_roundtrip (raw : RawFrame) (recs : List Json)
    (hrows : raw.rows.length = raw.index.length)
    (hvalid : ∀ d ∈ raw.index, d.valid = true)
    (h : processResponse raw = some (Json.arr recs)) :
    ∀ r ∈ recs, ∃ s v, r = Json.obj [("Date", Json.str s), ("Close", v)] ∧
      (parseYMD s).isSome = true := by
  obtain ⟨pcol, hlen, hj⟩ := processResponse_shape raw _ hrows h
  injection hj with hj2
  subst hj2
  intro r hr
  obtain ⟨p, hp, hpr⟩ := List.mem_map.mp hr
  obtain ⟨hp1, hp2⟩ := List.of_mem_zip hp
  obtain ⟨d, hd, he⟩ := List.mem_map.mp hp1
  refine ⟨strftimeYMD d, cellToJson p.snd, ?_,
    by simp [parseYMD_strftimeYMD d (hvalid d hd)]⟩
  rw [← hpr]
  simp [priceRecord, ← he, cellToJson]

/-- Witness for claim C9 at a run whose close value is missing: the record
still has exactly the two keys and a decodable date. -/
theorem c9_records_roundtrip_witness :
    ∃ s v, (Json.obj [("Date", Json.str "2020-01-02"), ("Close", Json.null)]) =
      Json.obj [("Date", Json.str s), ("Close", v)] ∧ (parseYMD s).isSome = true :=
  c9_records_roundtrip ⟨[⟨2020, 1, 2⟩], Columns.flat ["Close"], [[Cell.null]]⟩
    [Json.obj [("Date", Json.str "2020-01-02"), ("Close", Json.null)]]
    (by decide) (by decide) rfl
    (Json.obj [("Date", Json.str "2020-01-02"), ("Close", Json.null)])
    (List.mem_singleton.mpr rfl)

/-- Claim C10: on a provider response with no rows and a flat column set
containing Close, invoked with its two arguments, the run succeeds and the
printed output is exactly the empty JSON array. -/
theorem c10_empty_frame (argv : List String) (names : List String)
    (hargs : 3 ≤ argv.length)
    (hclose : "Close" ∈ names)
    (hnodate : "Date" ∉ names) :
    runScript argv ⟨[], Columns.flat names, []⟩ = ⟨0, some "[]"⟩ := by
  obtain ⟨p, hp⟩ := parseArgs_long argv hargs
  have hcol : FlatFrame.col ⟨"Date" :: names, ([] : List (List Cell))⟩ "Close" =
      some [] := by
    obtain ⟨k, hk⟩ := findIdx_mem ("Date" :: names) "Close" (List.mem_cons_of_mem _ hclose)
    simp [FlatFrame.col, hk, colValues]
  have hdcol : FlatFrame.col ⟨"Date" :: names, ([] : List (List Cell))⟩ "Date" =
      some [] := by
    simp [FlatFrame.col, findIdx, colValues]
  have hproc : processResponse ⟨[], Columns.flat names, []⟩ = some (Json.arr []) := by
    show processResponse _ = _
    simp [processResponse, reset_index, resetRows, result_data, hdcol, hcol,
      format_date_column, formatColumn, to_json_records]
  simp [runScript, hp, hproc, renderJson, renderItems]

/-- Witness for claim C10 at a concrete empty response. -/
theorem c10_empty_frame_witness :
    runScript ["FetchData.py", "AAPL", "2020-01-01"] ⟨[], Columns.flat ["Open", "Close"], []⟩ =
      ⟨0, some "[]"⟩ :=
  c10_empty_frame ["FetchData.py", "AAPL", "2020-01-01"] ["Open", "Close"]
    (by decide) (by decide) (by decide)
